import Mathlib

/-!
Verification of the BBS terminal-session core against its specification.

Shallow embedding of the Go sources:
- `internal/server/colors.go` (ColorScheme: palette, Colorize, HighlightSelection,
  stripAnsiCodes),
- `internal/menu/menu.go` (MenuRenderer.RenderConfigMenu),
- `internal/server/session.go` (handleLogin, readInput, menuLoop navigation,
  executeCommand submenu push, readKeyLocal/readKeySSH, GetUser,
  UpdateUserLastCall),
- `internal/pager/pager.go` (Pager.Display / displayPage row positioning),
- the SSH server file (passwordCallback, TerminalWriter.handleStatusBarRedraw).

Text is modelled as `List Char` (the sources only ever inspect ASCII bytes of
the strings they manipulate, so the char-level view is faithful).  Go `int`
is modelled as `Int` where negative values can occur and as `Nat` where the
source only ever sees non-negative values.
-/

namespace BBS

/-! ## ColorScheme (internal/server/colors.go) -/

/-- An SGR escape sequence `ESC [ body m`, the shape of every value in the
`colorCodes` and `bgColorCodes` maps of colors.go. -/
def sgr (body : List Char) : List Char :=
  '\x1b' :: '[' :: body ++ ['m']

/-- The `colorCodes` map of colors.go (lookup returning `none` off the map,
where Go's map indexing yields `""` and `GetColor` returns `""`). -/
def colorCodes : String → Option (List Char)
  | "black" => some (sgr ['3', '0'])
  | "red" => some (sgr ['3', '1'])
  | "green" => some (sgr ['3', '2'])
  | "yellow" => some (sgr ['3', '3'])
  | "blue" => some (sgr ['3', '4'])
  | "magenta" => some (sgr ['3', '5'])
  | "cyan" => some (sgr ['3', '6'])
  | "white" => some (sgr ['3', '7'])
  | "bright_black" => some (sgr ['9', '0'])
  | "bright_red" => some (sgr ['9', '1'])
  | "bright_green" => some (sgr ['9', '2'])
  | "bright_yellow" => some (sgr ['9', '3'])
  | "bright_blue" => some (sgr ['9', '4'])
  | "bright_magenta" => some (sgr ['9', '5'])
  | "bright_cyan" => some (sgr ['9', '6'])
  | "bright_white" => some (sgr ['9', '7'])
  | "reset" => some (sgr ['0'])
  | "bold" => some (sgr ['1'])
  | "underline" => some (sgr ['4'])
  | "reverse" => some (sgr ['7'])
  | _ => none

/-- The `bgColorCodes` map of colors.go. -/
def bgColorCodes : String → Option (List Char)
  | "black" => some (sgr ['4', '0'])
  | "red" => some (sgr ['4', '1'])
  | "green" => some (sgr ['4', '2'])
  | "yellow" => some (sgr ['4', '3'])
  | "blue" => some (sgr ['4', '4'])
  | "magenta" => some (sgr ['4', '5'])
  | "cyan" => some (sgr ['4', '6'])
  | "white" => some (sgr ['4', '7'])
  | _ => none

/-- Model of `config.ColorConfig`: the nine semantic palette entries. -/
structure ColorConfig where
  primary : String
  secondary : String
  accent : String
  text : String
  background : String
  border : String
  success : String
  error : String
  highlight : String
deriving DecidableEq, Repr

/-- The default palette installed by `config.Load`. -/
def defaultColors : ColorConfig :=
  { primary := "cyan", secondary := "red", accent := "yellow", text := "white"
    background := "black", border := "blue", success := "green", error := "red"
    highlight := "bright_white" }

/-- Model of `ColorScheme.GetColor`: resolve a semantic name through the palette, then
look the resolved name up in `colorCodes` (empty on a miss). -/
def GetColor (cfg : ColorConfig) (colorName : String) : List Char :=
  let configColor : String :=
    match colorName with
    | "primary" => cfg.primary
    | "secondary" => cfg.secondary
    | "accent" => cfg.accent
    | "text" => cfg.text
    | "background" => cfg.background
    | "border" => cfg.border
    | "success" => cfg.success
    | "error" => cfg.error
    | "highlight" => cfg.highlight
    | other => other
  (colorCodes configColor).getD []

/-- Model of `ColorScheme.GetBgColor`. -/
def GetBgColor (cfg : ColorConfig) (colorName : String) : List Char :=
  let configColor : String :=
    match colorName with
    | "background" => cfg.background
    | other => other
  (bgColorCodes configColor).getD []

/-- Value of `colorCodes["reset"]`, the suffix appended by `Colorize`. -/
def resetCode : List Char := (colorCodes "reset").getD []

/-- Model of `ColorScheme.Colorize` (colors.go line 294): SGR prefix, text, reset. -/
def Colorize (cfg : ColorConfig) (text : List Char) (colorName : String) : List Char :=
  GetColor cfg colorName ++ text ++ resetCode

/-- Model of `ColorScheme.ColorizeWithBg`. -/
def ColorizeWithBg (cfg : ColorConfig) (text : List Char) (fgColor bgColor : String) :
    List Char :=
  GetColor cfg fgColor ++ GetBgColor cfg bgColor ++ text ++ resetCode

/-- The scanning loop of `ColorScheme.stripAnsiCodes` (colors.go lines 383-406).
The `Bool` is the `inEscape` flag: `ESC [` enters an escape (both bytes
consumed), `m` ends it; bytes scanned inside an escape are dropped, and a lone
`ESC` not followed by `[` is kept. -/
def stripLoop : Bool → List Char → List Char
  | _, [] => []
  | true, c :: rest => if c = 'm' then stripLoop false rest else stripLoop true rest
  | false, '\x1b' :: '[' :: rest => stripLoop true rest
  | false, c :: rest => c :: stripLoop false rest

/-- Model of `ColorScheme.stripAnsiCodes` / `StripAnsiCodes` (colors.go lines 383-411). -/
def stripAnsiCodes (text : List Char) : List Char := stripLoop false text

/-- Whether a char list is free of the CSI introducer `ESC [` (the only
pattern `stripAnsiCodes` ever reacts to). -/
def csiFree : List Char → Bool
  | [] => true
  | c :: rest => !(c = '\x1b' && rest.head? = some '[') && csiFree rest

theorem stripLoop_csi (rest : List Char) :
    stripLoop false ('\x1b' :: '[' :: rest) = stripLoop true rest := rfl

theorem stripLoop_keep (c : Char) (rest : List Char)
    (h : ¬(c = '\x1b' ∧ rest.head? = some '[')) :
    stripLoop false (c :: rest) = c :: stripLoop false rest := by
  cases rest with
  | nil => simp [stripLoop]
  | cons d rest2 =>
    by_cases hc : c = '\x1b'
    · subst hc
      have hd : d ≠ '[' := by
        intro hd
        exact h ⟨rfl, by simp [hd]⟩
      simp [stripLoop, hd]
    · simp [stripLoop, hc]

theorem stripLoop_skip (body : List Char) (t : List Char) (h : 'm' ∉ body) :
    stripLoop true (body ++ 'm' :: t) = stripLoop false t := by
  induction body with
  | nil => simp [stripLoop]
  | cons c rest ih =>
    have hc : c ≠ 'm' := fun hcm => h (hcm ▸ List.mem_cons_self c rest)
    have hrest : 'm' ∉ rest := fun hm => h (List.mem_cons_of_mem _ hm)
    simp only [List.cons_append]
    rw [show stripLoop true (c :: (rest ++ 'm' :: t)) = stripLoop true (rest ++ 'm' :: t) by
      simp [stripLoop, hc]]
    exact ih hrest

theorem stripLoop_sgr (body : List Char) (t : List Char) (h : 'm' ∉ body) :
    stripLoop false (sgr body ++ t) = stripLoop false t := by
  have heq : sgr body ++ t = '\x1b' :: '[' :: (body ++ 'm' :: t) := by simp [sgr]
  rw [heq, stripLoop_csi, stripLoop_skip body t h]

theorem stripLoop_colorCodes (x : String) (t : List Char) :
    stripLoop false ((colorCodes x).getD [] ++ t) = stripLoop false t := by
  unfold colorCodes
  split <;> rfl

theorem stripLoop_bgColorCodes (x : String) (t : List Char) :
    stripLoop false ((bgColorCodes x).getD [] ++ t) = stripLoop false t := by
  unfold bgColorCodes
  split <;> rfl

theorem stripLoop_getColor (cfg : ColorConfig) (name : String) (t : List Char) :
    stripLoop false (GetColor cfg name ++ t) = stripLoop false t :=
  stripLoop_colorCodes _ t

theorem stripLoop_getBgColor (cfg : ColorConfig) (name : String) (t : List Char) :
    stripLoop false (GetBgColor cfg name ++ t) = stripLoop false t :=
  stripLoop_bgColorCodes _ t

/-- Appending the reset code to a CSI-free text strips back to the text. -/
theorem stripLoop_append_reset (s : List Char) (h : csiFree s = true) :
    stripLoop false (s ++ resetCode) = s := by
  induction s with
  | nil => decide
  | cons c rest ih =>
    have hparts : ¬(c = '\x1b' ∧ rest.head? = some '[') ∧ csiFree rest = true := by
      have := h
      simp only [csiFree, Bool.and_eq_true, Bool.not_eq_true', Bool.and_eq_false_iff,
        decide_eq_false_iff_not] at this
      constructor
      · rintro ⟨hc, hd⟩
        rcases this.1 with h1 | h1
        · exact absurd hc (by simpa using h1)
        · exact absurd hd (by simpa using h1)
      · exact this.2
    have hkeep : ¬(c = '\x1b' ∧ (rest ++ resetCode).head? = some '[') := by
      rintro ⟨hc, hd⟩
      cases rest with
      | nil =>
        rw [List.nil_append] at hd
        exact absurd hd (by decide)
      | cons r0 rest2 =>
        exact hparts.1 ⟨hc, by simpa using hd⟩
    rw [List.cons_append, stripLoop_keep c _ hkeep, ih hparts.2]

theorem stripAnsi_colorize (cfg : ColorConfig) (s : List Char) (c : String)
    (hs : csiFree s = true) :
    stripAnsiCodes (Colorize cfg s c) = s := by
  unfold stripAnsiCodes Colorize
  rw [List.append_assoc, stripLoop_getColor, stripLoop_append_reset s hs]

/-- Claim C7, as stated, is false: `strip_ansi(colorize(s, c)) == s` fails for
a string `s` that itself contains the CSI introducer `ESC [` — stripping
removes material from `s` as well.  Concretely `s = "\x1b["` with the
recognized color name `"error"` under the default palette strips to `""`. -/
theorem claim7_counterexample :
    stripAnsiCodes (Colorize defaultColors ['\x1b', '['] "error") = []
      ∧ ([] : List Char) ≠ ['\x1b', '['] := by
  constructor
  · rfl
  · decide

/-- Claim C7 (amended): for every string `s` that is free of the CSI
introducer `ESC [` and every recognized semantic color name `c`,
`strip_ansi(colorize(s, c)) == s` under every palette. -/
theorem claim7_strip_colorize_roundtrip (cfg : ColorConfig) (s : List Char) (c : String)
    (hs : csiFree s = true)
    (hc : c ∈ ["primary", "secondary", "accent", "text", "background", "border",
               "success", "error", "highlight"]) :
    stripAnsiCodes (Colorize cfg s c) = s :=
  stripAnsi_colorize cfg s c hs

/-- Witness for C7's amended theorem at a concrete input. -/
theorem claim7_witness :
    csiFree "Hello, BBS!".toList = true ∧
    stripAnsiCodes (Colorize defaultColors "Hello, BBS!".toList "error")
      = "Hello, BBS!".toList :=
  ⟨by decide,
   claim7_strip_colorize_roundtrip defaultColors "Hello, BBS!".toList "error"
     (by decide) (by decide)⟩

/-- Model of `ColorScheme.HighlightSelection` (colors.go lines 331-348).  The padding is
computed from the raw length of `text` (ANSI codes included):
`padding = max(width − len(text), 0)` followed by `strings.Repeat(" ", padding−1)`.
`strings.Repeat` panics on a negative count (when `width ≤ len(text)`), which is
modelled as `none`. -/
def HighlightSelection (cfg : ColorConfig) (text : List Char) (selected : Bool)
    (width : Int) : Option (List Char) :=
  let padding : Int := max (width - text.length) 0
  if padding - 1 < 0 then none
  else
    let padded := ' ' :: text ++ List.replicate (padding - 1).toNat ' '
    some (if selected then ColorizeWithBg cfg padded "highlight" "primary"
          else Colorize cfg padded "text")

/-- Modelled from the spec's words, for comparison with `HighlightSelection`
(claim C8): the row is one leading space, the text, `max_width − visible_len − 2`
spaces, one trailing space, where `visible_len` is the ANSI-stripped length. -/
def HighlightSelectionClaim (cfg : ColorConfig) (text : List Char) (selected : Bool)
    (width : Int) : List Char :=
  let visibleLen : Int := (stripAnsiCodes text).length
  let padded := ' ' :: text ++ List.replicate (width - visibleLen - 2).toNat ' ' ++ [' ']
  if selected then ColorizeWithBg cfg padded "highlight" "primary"
  else Colorize cfg padded "text"

theorem csiFree_replicate_space (k : Nat) : csiFree (List.replicate k ' ') = true := by
  induction k with
  | zero => rfl
  | succ n ih => simp [csiFree, List.replicate_succ, ih]

theorem csiFree_append_spaces (t : List Char) (k : Nat) (h : csiFree t = true) :
    csiFree (t ++ List.replicate k ' ') = true := by
  induction t with
  | nil => simpa using csiFree_replicate_space k
  | cons c rest ih =>
    simp only [csiFree, Bool.and_eq_true, Bool.not_eq_true'] at h
    simp only [List.cons_append, csiFree, Bool.and_eq_true, Bool.not_eq_true']
    refine ⟨?_, ih h.2⟩
    cases rest with
    | nil =>
      have hh : (List.replicate k ' ').head? ≠ some '[' := by
        cases k with
        | zero => simp
        | succ n =>
          simp only [List.replicate_succ, List.head?_cons]
          decide
      simp [hh]
    | cons r0 rest2 =>
      simpa using h.1

/-- Claim C8, as stated, is false: the code pads from the raw byte length of
the item text, not the ANSI-stripped visible length.  With the accent-marked
text `colorize("A", "accent")` (raw length 10, visible length 1) and
`max_width = 20`, the code emits 9 trailing pad spaces where the claim
predicts 17 plus a final space. -/
theorem claim8_counterexample :
    HighlightSelection defaultColors (Colorize defaultColors ['A'] "accent") true 20
      ≠ some (HighlightSelectionClaim defaultColors
          (Colorize defaultColors ['A'] "accent") true 20) := by
  decide

/-- Claim C8 (amended): `highlight_selection(text, selected, max_width)` pads
with `max_width − len(text) − 1` spaces after one leading space, where
`len(text)` is the raw length of the text with its ANSI codes (not the
stripped visible length); when selected the whole padded row is wrapped in the
highlight-foreground and primary-background SGR codes, and for ANSI-free text
the stripped visible row is exactly the padded row. -/
theorem claim8_highlight_selection (cfg : ColorConfig) (text : List Char) (width : Int)
    (h : (text.length : Int) < width) :
    HighlightSelection cfg text true width
      = some (ColorizeWithBg cfg
          (' ' :: text ++ List.replicate (width - text.length - 1).toNat ' ')
          "highlight" "primary")
    ∧ (csiFree text = true →
        stripAnsiCodes (ColorizeWithBg cfg
          (' ' :: text ++ List.replicate (width - text.length - 1).toNat ' ')
          "highlight" "primary")
        = ' ' :: text ++ List.replicate (width - text.length - 1).toNat ' ') := by
  have hmax : max (width - (text.length : Int)) 0 = width - text.length := by omega
  have hpos : ¬(width - (text.length : Int) - 1 < 0) := by omega
  constructor
  · simp only [HighlightSelection, hmax, if_neg hpos, if_true]
  · intro hfree
    unfold ColorizeWithBg stripAnsiCodes
    rw [List.append_assoc, List.append_assoc, stripLoop_getColor, stripLoop_getBgColor]
    have hfree2 :
        csiFree (' ' :: text ++ List.replicate (width - text.length - 1).toNat ' ')
          = true := by
      simp only [List.cons_append, csiFree, Bool.and_eq_true, Bool.not_eq_true']
      have hsp : decide (' ' = '\x1b') = false := by decide
      refine ⟨by simp [hsp], csiFree_append_spaces text _ hfree⟩
    have hres := stripLoop_append_reset
      (' ' :: text ++ List.replicate (width - text.length - 1).toNat ' ') hfree2
    simpa [List.append_assoc] using hres

/-- Witness for C8's amended theorem at a concrete input. -/
theorem claim8_witness :
    (("Menu".toList.length : Int) < 10) ∧
    (HighlightSelection defaultColors "Menu".toList true 10
        = some (ColorizeWithBg defaultColors
            (' ' :: "Menu".toList ++
              List.replicate ((10 - ("Menu".toList.length : Int) - 1)).toNat ' ')
            "highlight" "primary")
      ∧ (csiFree "Menu".toList = true →
          stripAnsiCodes (ColorizeWithBg defaultColors
            (' ' :: "Menu".toList ++
              List.replicate ((10 - ("Menu".toList.length : Int) - 1)).toNat ' ')
            "highlight" "primary")
          = ' ' :: "Menu".toList ++
              List.replicate ((10 - ("Menu".toList.length : Int) - 1)).toNat ' ')) :=
  ⟨by decide, claim8_highlight_selection defaultColors "Menu".toList 10 (by decide)⟩

/-! ## Menu rendering and dispatch (internal/menu/menu.go, session.go menuLoop) -/

/-- Model of `config.MenuItem`, one menu level deep: the fields `RenderConfigMenu` and
`menuLoop` read from the entries of a menu's `Submenu` list.  (An entry's own
nested submenu plays no role in claim C1 and is not represented.) -/
structure MenuEntry where
  id : String
  title : String
  description : List Char
  command : String
  accessLevel : Int
  hotkey : String
deriving DecidableEq, Repr

/-- Model of `strings.ToLower` restricted to ASCII (hotkeys and menu keys are single
ASCII characters). -/
def toLowerChar (c : Char) : Char :=
  if 'A' ≤ c ∧ c ≤ 'Z' then Char.ofNat (c.toNat + 32) else c

/-- Model of `strings.ToUpper` restricted to ASCII. -/
def toUpperChar (c : Char) : Char :=
  if 'a' ≤ c ∧ c ≤ 'z' then Char.ofNat (c.toNat - 32) else c

/-- Model of `strings.ToLower` on a string. -/
def strToLower (s : String) : String := ⟨s.data.map toLowerChar⟩

/-- Model of `strings.ToUpper` on a string. -/
def strToUpper (s : String) : String := ⟨s.data.map toUpperChar⟩

/-- The scanning loop of `MenuRenderer.highlightHotkey` (menu.go lines 222-236):
the first character matching the lower- or upper-cased hotkey is re-colored
with the accent color. -/
def highlightHotkeyGo (cfg : ColorConfig) (lo hi : String) : List Char → List Char
  | [] => []
  | c :: rest =>
    if String.singleton c = lo ∨ String.singleton c = hi then
      Colorize cfg [c] "accent" ++ rest
    else c :: highlightHotkeyGo cfg lo hi rest

/-- Model of `MenuRenderer.highlightHotkey` (menu.go lines 214-240). -/
def highlightHotkey (cfg : ColorConfig) (description : List Char) (hotkey : String) :
    List Char :=
  if hotkey = "" then description
  else highlightHotkeyGo cfg (strToLower hotkey) (strToUpper hotkey) description

/-- The visible list built by `MenuRenderer.RenderConfigMenu` (menu.go lines
64-83): entries passing the access filter, with the hotkey accent-marked
description, as `(id, description)` rows. -/
def RenderConfigMenu (cfg : ColorConfig) (submenu : List MenuEntry)
    (userAccessLevel : Int) : List (String × List Char) :=
  (submenu.filter (fun item => item.accessLevel ≤ userAccessLevel)).map
    (fun item => (item.id, highlightHotkey cfg item.description item.hotkey))

/-- Model of `database.User`: the fields the session logic branches on.  (Display-only
fields — real name, email, timestamps, call counter — are not represented.) -/
structure User where
  username : String
  password : String
  accessLevel : Int
  isActive : Bool
deriving DecidableEq, Repr

/-- The `accessibleItems` list of `Session.menuLoop` (session.go lines 212-218):
all entries when no user is bound, otherwise those within the user's access
level. -/
def accessibleItems (submenu : List MenuEntry) (user : Option User) : List MenuEntry :=
  submenu.filter (fun item =>
    match user with
    | none => true
    | some u => item.accessLevel ≤ u.accessLevel)

/-- The hotkey branch of `Session.menuLoop` (session.go lines 290-306): a
single-character key dispatches the first accessible entry whose non-empty
hotkey matches case-insensitively; anything else dispatches nothing. -/
def hotkeyDispatch (accessible : List MenuEntry) (key : String) : Option MenuEntry :=
  if key.length = 1 then
    accessible.find? (fun item =>
      (item.hotkey != "") && (strToLower item.hotkey == strToLower key))
  else none

/-- Claim C1: a menu entry is visible iff `item.access_level ≤ user.access_level`
(so the visible count is the number of entries passing the filter), the
rendered rows are exactly the accessible entries, a hotkey dispatches only
entries of the visible list, and a hotkey all of whose owners are filtered
out dispatches nothing. -/
theorem claim1_menu_access_filter (cfg : ColorConfig) (submenu : List MenuEntry)
    (u : User) (key : String) :
    ((RenderConfigMenu cfg submenu u.accessLevel).length
        = submenu.countP (fun item => item.accessLevel ≤ u.accessLevel))
    ∧ (∀ item, item ∈ accessibleItems submenu (some u)
        ↔ item ∈ submenu ∧ item.accessLevel ≤ u.accessLevel)
    ∧ ((RenderConfigMenu cfg submenu u.accessLevel).map Prod.fst
        = (accessibleItems submenu (some u)).map MenuEntry.id)
    ∧ (∀ item, hotkeyDispatch (accessibleItems submenu (some u)) key = some item
        → item ∈ submenu ∧ item.accessLevel ≤ u.accessLevel)
    ∧ ((∀ item ∈ submenu,
          ((item.hotkey != "") && (strToLower item.hotkey == strToLower key)) = true
          → ¬(item.accessLevel ≤ u.accessLevel))
        → hotkeyDispatch (accessibleItems submenu (some u)) key = none) := by
  have hmem : ∀ item, item ∈ accessibleItems submenu (some u)
      ↔ item ∈ submenu ∧ item.accessLevel ≤ u.accessLevel := by
    intro item
    simp [accessibleItems, List.mem_filter]
  refine ⟨?_, hmem, ?_, ?_, ?_⟩
  · simp only [RenderConfigMenu, List.length_map]
    exact (List.countP_eq_length_filter _ _).symm
  · simp [RenderConfigMenu, accessibleItems, List.map_map]
  · intro item hfind
    unfold hotkeyDispatch at hfind
    by_cases hk : key.length = 1
    · rw [if_pos hk] at hfind
      exact (hmem item).mp (List.mem_of_find?_eq_some hfind)
    · rw [if_neg hk] at hfind
      exact absurd hfind (by simp)
  · intro hnone
    unfold hotkeyDispatch
    by_cases hk : key.length = 1
    · rw [if_pos hk]
      rw [List.find?_eq_none]
      intro item hitem
      have hin := (hmem item).mp hitem
      intro hmatch
      exact hnone item hin.1 hmatch hin.2
    · rw [if_neg hk]

/-- Witness for C1 at a concrete input: a user with access level 10 at a menu
holding a level-255 "Sysop" entry (hotkey `s`): typing `s` dispatches
nothing. -/
theorem claim1_witness :
    (∀ item ∈ [⟨"bulletins", "Bulletins", "Read system bulletins".toList,
                  "bulletins", 0, "b"⟩,
               (⟨"sysop", "Sysop", "System operator menu".toList,
                  "sysop", 255, "s"⟩ : MenuEntry)],
        ((item.hotkey != "") && (strToLower item.hotkey == strToLower "s")) = true
        → ¬(item.accessLevel ≤ (10 : Int)))
    ∧ hotkeyDispatch
        (accessibleItems
          [⟨"bulletins", "Bulletins", "Read system bulletins".toList,
              "bulletins", 0, "b"⟩,
           ⟨"sysop", "Sysop", "System operator menu".toList, "sysop", 255, "s"⟩]
          (some ⟨"guest", "pw", 10, true⟩)) "s" = none :=
  ⟨by decide,
   (claim1_menu_access_filter defaultColors
      [⟨"bulletins", "Bulletins", "Read system bulletins".toList, "bulletins", 0, "b"⟩,
       ⟨"sysop", "Sysop", "System operator menu".toList, "sysop", 255, "s"⟩]
      ⟨"guest", "pw", 10, true⟩ "s").2.2.2.2 (by decide)⟩

/-! ## SSH password authentication (server file: passwordCallback; session.go: DB.GetUser) -/

/-- Model of `DB.GetUser` (session.go lines 775-792): the query selects
`WHERE username = ? AND is_active = 1`; the first matching row (the schema's
UNIQUE constraint makes it unique). -/
def GetUser (db : List User) (username : String) : Option User :=
  db.find? (fun u => (u.username == username) && u.isActive)

/-- The result of the SSH password callback: permissions carrying the
username extension, or an error message. -/
inductive AuthResult where
  | ok (username : String)
  | err (msg : String)
deriving DecidableEq, Repr

/-- Model of `Server.passwordCallback`: look the user up (active users only); fail with
`"authentication failed"` when the lookup fails or the stored password
differs; otherwise return permissions carrying the username. -/
def passwordCallback (db : List User) (connUser : String) (password : String) :
    AuthResult :=
  match GetUser db connUser with
  | none => .err "authentication failed"
  | some user =>
    if user.password ≠ password then .err "authentication failed"
    else .ok connUser

theorem passwordCallback_ok_or_err (db : List User) (n p : String) :
    (∃ u, passwordCallback db n p = .ok u)
    ∨ passwordCallback db n p = .err "authentication failed" := by
  unfold passwordCallback
  cases GetUser db n with
  | none => exact Or.inr rfl
  | some user =>
    by_cases hp : user.password ≠ p
    · exact Or.inr (by simp [hp])
    · exact Or.inl ⟨n, by simp [hp]⟩

/-- Claim C3: the password callback succeeds iff a user with the given name
exists, is active, and has the supplied password (usernames are unique per the
schema's UNIQUE constraint); and any two failing inputs produce the identical
error value, whatever predicate failed. -/
theorem claim3_password_callback (db : List User) (name pw : String)
    (hnodup : db.Pairwise (fun a b => a.username ≠ b.username)) :
    ((∃ u, passwordCallback db name pw = .ok u)
      ↔ ∃ u ∈ db, u.username = name ∧ u.isActive = true ∧ u.password = pw)
    ∧ (∀ n1 p1 n2 p2,
        (¬∃ u, passwordCallback db n1 p1 = .ok u) →
        (¬∃ u, passwordCallback db n2 p2 = .ok u) →
        passwordCallback db n1 p1 = passwordCallback db n2 p2) := by
  constructor
  · induction db with
    | nil =>
      simp [passwordCallback, GetUser]
    | cons u0 rest ih =>
      have hnd : (∀ b ∈ rest, u0.username ≠ b.username)
          ∧ rest.Pairwise (fun a b => a.username ≠ b.username) := by
        simpa [List.pairwise_cons] using hnodup
      by_cases hhit : u0.username = name ∧ u0.isActive = true
      · have hfind : GetUser (u0 :: rest) name = some u0 := by
          simp [GetUser, List.find?, hhit.1, hhit.2]
        constructor
        · rintro ⟨u, hu⟩
          unfold passwordCallback at hu
          rw [hfind] at hu
          by_cases hp : u0.password ≠ pw
          · simp [hp] at hu
          · exact ⟨u0, List.mem_cons_self _ _, hhit.1, hhit.2, by simpa using hp⟩
        · rintro ⟨u, hu, hname, hact, hpw⟩
          have hu0 : u = u0 := by
            rcases List.mem_cons.mp hu with h | h
            · exact h
            · exact absurd (hname.trans hhit.1.symm) (hnd.1 u h).symm
          subst hu0
          refine ⟨name, ?_⟩
          unfold passwordCallback
          rw [hfind]
          simp [hpw]
      · have hskip : GetUser (u0 :: rest) name = GetUser rest name := by
          unfold GetUser
          rw [List.find?_cons]
          have : (u0.username == name && u0.isActive) = false := by
            rcases not_and_or.mp hhit with h | h
            · simp [h]
            · simp [Bool.eq_false_iff.mpr h]
          rw [this]
        have hcb : passwordCallback (u0 :: rest) name pw
            = passwordCallback rest name pw := by
          unfold passwordCallback
          rw [hskip]
        rw [hcb]
        rw [ih hnd.2]
        constructor
        · rintro ⟨u, hu, rest'⟩
          exact ⟨u, List.mem_cons_of_mem _ hu, rest'⟩
        · rintro ⟨u, hu, hname, hact, hpw⟩
          rcases List.mem_cons.mp hu with h | h
          · exact absurd ⟨h ▸ hname, h ▸ hact⟩ hhit
          · exact ⟨u, h, hname, hact, hpw⟩
  · intro n1 p1 n2 p2 h1 h2
    rcases passwordCallback_ok_or_err db n1 p1 with h | h
    · exact absurd h h1
    · rcases passwordCallback_ok_or_err db n2 p2 with h' | h'
      · exact absurd h' h2
      · rw [h, h']

/-- Witness for C3 at a concrete store: one active user `sysop`/`secret`.
Login succeeds with the right password; the two failure modes (wrong
password, unknown user) yield the identical error. -/
theorem claim3_witness :
    ([(⟨"sysop", "secret", 255, true⟩ : User)].Pairwise
        (fun a b => a.username ≠ b.username))
    ∧ (∃ u, passwordCallback [⟨"sysop", "secret", 255, true⟩] "sysop" "secret" = .ok u)
    ∧ passwordCallback [⟨"sysop", "secret", 255, true⟩] "sysop" "wrong"
        = passwordCallback [⟨"sysop", "secret", 255, true⟩] "nobody" "secret" := by
  have h := claim3_password_callback [⟨"sysop", "secret", 255, true⟩] "sysop" "secret"
    (by simp)
  refine ⟨by simp, ?_, ?_⟩
  · exact h.1.mpr ⟨⟨"sysop", "secret", 255, true⟩, by simp, rfl, rfl, rfl⟩
  · have e1 : passwordCallback [⟨"sysop", "secret", 255, true⟩] "sysop" "wrong"
        = .err "authentication failed" := by decide
    have e2 : passwordCallback [⟨"sysop", "secret", 255, true⟩] "nobody" "secret"
        = .err "authentication failed" := by decide
    exact h.2 "sysop" "wrong" "nobody" "secret"
      (by rintro ⟨u, hu⟩; rw [e1] at hu; exact AuthResult.noConfusion hu)
      (by rintro ⟨u, hu⟩; rw [e2] at hu; exact AuthResult.noConfusion hu)

/-! ## Post-login key reading (session.go readKeyLocal lines 339-391 and the
byte-identical readKeySSH lines 394-446) -/

/-- Model of `Session.readKeyLocal` / `Session.readKeySSH` over a byte stream: returns
the logical key and the unconsumed remainder of the stream; `none` models the
read-error return.  After `ESC [`, the third byte is consumed whatever it is;
only `A`/`B`/`C`/`D` become arrow keys, anything else yields `"escape"`.  A
read error or end of stream after a lone `ESC` also yields `"escape"`. -/
def readKeyGo : List Nat → Option String × List Nat
  | [] => (none, [])
  | b :: rest =>
    if b = 13 ∨ b = 10 then (some "enter", rest)
    else if b = 27 then
      match rest with
      | [] => (some "escape", [])
      | b2 :: rest2 =>
        if b2 = 91 then
          match rest2 with
          | [] => (some "escape", [])
          | b3 :: rest3 =>
            if b3 = 65 then (some "up", rest3)
            else if b3 = 66 then (some "down", rest3)
            else if b3 = 67 then (some "right", rest3)
            else if b3 = 68 then (some "left", rest3)
            else (some "escape", rest3)
        else (some "escape", rest2)
    else if b = 113 ∨ b = 81 then (some "quit", rest)
    else if b = 103 ∨ b = 71 then (some "goodbye", rest)
    else if b = 3 then (some "goodbye", rest)
    else (some (String.singleton (Char.ofNat b)), rest)

/-- Claim C10: `ESC [ X` with `X ∉ {A,B,C,D}` yields the logical key
`"escape"` with `X` consumed and discarded (the remainder starts after `X`,
so `X` is never delivered as a key), and a lone `ESC` yields `"escape"`. -/
theorem claim10_escape_swallows_third_byte (x : Nat) (rest : List Nat)
    (hx : x ≠ 65 ∧ x ≠ 66 ∧ x ≠ 67 ∧ x ≠ 68) :
    readKeyGo (27 :: 91 :: x :: rest) = (some "escape", rest)
    ∧ readKeyGo [27] = (some "escape", []) := by
  refine ⟨?_, rfl⟩
  simp [readKeyGo, hx.1, hx.2.1, hx.2.2.1, hx.2.2.2]

/-- Witness for C10 at the concrete byte `Z` (0x5A) followed by `q`. -/
theorem claim10_witness :
    ((90 : Nat) ≠ 65 ∧ (90 : Nat) ≠ 66 ∧ (90 : Nat) ≠ 67 ∧ (90 : Nat) ≠ 68)
    ∧ (readKeyGo [27, 91, 90, 113] = (some "escape", [113])
        ∧ readKeyGo [27] = (some "escape", [])) :=
  ⟨by decide, claim10_escape_swallows_third_byte 90 [113] (by decide)⟩

/-! ## Login input reading (session.go readInput lines 145-187) -/

/-- Model of `Session.readInput` over a byte stream, with the accumulated input as the
`input` parameter: returns the parsed line (`none` models the error returns)
and the ordered list of terminal writes it makes.  Enter writes `"\n"` and
finishes; backspace on non-empty input rubs one character out with
`"\x08 \x08"` (backspace, space, backspace); Ctrl-C errors out; `ESC` is ignored; a printable byte is appended
to the input and writes `"*"` when masking, and *nothing* otherwise. -/
def readInputGo (maskInput : Bool) (input : List Char) :
    List Nat → Option (List Char) × List (List Char)
  | [] => (none, [])
  | b :: rest =>
    if b = 13 ∨ b = 10 then (some input, [['\n']])
    else if b = 8 ∨ b = 127 then
      if input ≠ [] then
        let r := readInputGo maskInput input.dropLast rest
        (r.1, ['\x08', ' ', '\x08'] :: r.2)
      else readInputGo maskInput input rest
    else if b = 3 then (none, [])
    else if b = 27 then readInputGo maskInput input rest
    else if 32 ≤ b ∧ b ≤ 126 then
      let r := readInputGo maskInput (input ++ [Char.ofNat b]) rest
      if maskInput then (r.1, ['*'] :: r.2) else r
    else readInputGo maskInput input rest

/-- Claim C9, as stated, is false: in the username (unmasked) phase a printable
keystroke produces **no** echo — typing `ab` then Enter writes only the final
newline, never `a` or `b`. -/
theorem claim9_counterexample :
    (readInputGo false [] [97, 98, 13]).2 = [['\n']]
    ∧ ['a'] ∉ (readInputGo false [] [97, 98, 13]).2
    ∧ ['b'] ∉ (readInputGo false [] [97, 98, 13]).2 := by
  decide

/-- Claim C9 (amended): printable username keystrokes are *not* echoed (the
only write of the unmasked read is the final newline), while each printable
password keystroke writes a single `*`. -/
theorem claim9_input_echo (bytes : List Nat) (input : List Char)
    (h : ∀ b ∈ bytes, 32 ≤ b ∧ b ≤ 126) :
    (readInputGo false input (bytes ++ [13])).2 = [['\n']]
    ∧ (readInputGo true input (bytes ++ [13])).2
        = List.replicate bytes.length ['*'] ++ [['\n']] := by
  induction bytes generalizing input with
  | nil => simp [readInputGo]
  | cons b bs ih =>
    have hb := h b (List.mem_cons_self _ _)
    have hrest : ∀ x ∈ bs, 32 ≤ x ∧ x ≤ 126 :=
      fun x hx => h x (List.mem_cons_of_mem _ hx)
    have h1 : ¬(b = 13 ∨ b = 10) := by omega
    have h2 : ¬(b = 8 ∨ b = 127) := by omega
    have h3 : b ≠ 3 := by omega
    have h4 : b ≠ 27 := by omega
    have h5 : 32 ≤ b ∧ b ≤ 126 := hb
    have ih' := ih (input ++ [Char.ofNat b]) hrest
    constructor
    · simpa [readInputGo, h1, h2, h3, h4, h5] using ih'.1
    · rw [List.cons_append]
      rw [show readInputGo true input (b :: (bs ++ [13]))
            = (let r := readInputGo true (input ++ [Char.ofNat b]) (bs ++ [13])
               (r.1, ['*'] :: r.2)) by
        simp [readInputGo, h1, h2, h3, h4, h5]]
      simp only []
      rw [ih'.2]
      simp [List.replicate_succ]

/-- Witness for C9's amended theorem: typing `hi` then Enter. -/
theorem claim9_witness :
    (∀ b ∈ [104, 105], 32 ≤ b ∧ b ≤ 126)
    ∧ ((readInputGo false [] ([104, 105] ++ [13])).2 = [['\n']]
        ∧ (readInputGo true [] ([104, 105] ++ [13])).2
            = List.replicate ([104, 105] : List Nat).length ['*'] ++ [['\n']]) :=
  ⟨by decide, claim9_input_echo [104, 105] [] (by decide)⟩

/-! ## Menu history stack (session.go: menuLoop "quit" case lines 262-281,
executeCommand submenu navigation lines 463-466 and 544-548) -/

/-- The navigation state a session carries: `currentMenu`, `menuHistory`
(a slice used as a stack, append at the end / pop from the end), and
`selectedIndex`. -/
structure NavState where
  currentMenu : String
  menuHistory : List String
  selectedIndex : Int
deriving DecidableEq, Repr

/-- The submenu-navigation effect of `Session.executeCommand` (session.go
lines 463-466 for `sysop_menu`, lines 544-548 for the default branch with a
non-empty submenu): push the current menu id, descend, reset the selection. -/
def pushSubmenu (s : NavState) (target : String) : NavState :=
  { currentMenu := target
    menuHistory := s.menuHistory ++ [s.currentMenu]
    selectedIndex := 0 }

/-- The `"quit"` case of `Session.menuLoop` (session.go lines 262-281): on the
root menu `"main"` the key does nothing; otherwise pop one id off the history
(falling back to `"main"` when the history is empty) and reset the
selection. -/
def backKey (s : NavState) : NavState :=
  if s.currentMenu = "main" then s
  else
    match s.menuHistory.getLast? with
    | some m =>
      { currentMenu := m, menuHistory := s.menuHistory.dropLast, selectedIndex := 0 }
    | none =>
      { currentMenu := "main", menuHistory := s.menuHistory, selectedIndex := 0 }

/-- Fold of `k` submenu pushes in sequence. -/
def pushAll (s : NavState) (targets : List String) : NavState :=
  targets.foldl pushSubmenu s

/-- Fold of `k` presses of the back key. -/
def backN : Nat → NavState → NavState
  | 0, s => s
  | n + 1, s => backKey (backN n s)

theorem backN_pushAll (ts : List String) (s : NavState)
    (h : ∀ t ∈ ts, t ≠ "main") :
    backN ts.length (pushAll s ts)
      = if ts.isEmpty then s
        else { currentMenu := s.currentMenu, menuHistory := s.menuHistory,
               selectedIndex := 0 } := by
  induction ts generalizing s with
  | nil => rfl
  | cons t ts ih =>
    have ht : t ≠ "main" := h t (List.mem_cons_self _ _)
    have hts : ∀ x ∈ ts, x ≠ "main" := fun x hx => h x (List.mem_cons_of_mem _ hx)
    have hstep : pushAll s (t :: ts) = pushAll (pushSubmenu s t) ts := rfl
    have hlen : (t :: ts).length = ts.length + 1 := rfl
    rw [hstep, hlen]
    show backKey (backN ts.length (pushAll (pushSubmenu s t) ts)) = _
    rw [ih (pushSubmenu s t) hts]
    have hcollapse :
        (if ts.isEmpty then pushSubmenu s t
         else { currentMenu := (pushSubmenu s t).currentMenu,
                menuHistory := (pushSubmenu s t).menuHistory, selectedIndex := 0 })
        = pushSubmenu s t := by
      cases ts <;> simp [pushSubmenu]
    rw [hcollapse]
    unfold backKey pushSubmenu
    simp only [ht, if_false, List.getLast?_concat, List.dropLast_concat]
    simp

/-- Claim C4: submenu dispatch pushes the current menu id and resets the
selection; the back key at `"main"` changes nothing; the back key elsewhere
pops exactly one id and makes it the current menu; and `k` pushes (into
submenus, whose ids differ from the root id `"main"`) followed by `k` back
presses restore the original current menu with an empty history. -/
theorem claim4_menu_history_stack (s : NavState) (target : String)
    (ts : List String) :
    (pushSubmenu s target
      = { currentMenu := target, menuHistory := s.menuHistory ++ [s.currentMenu],
          selectedIndex := 0 })
    ∧ (s.currentMenu = "main" → backKey s = s)
    ∧ (∀ h m, s.currentMenu ≠ "main" → s.menuHistory = h ++ [m] →
        backKey s = { currentMenu := m, menuHistory := h, selectedIndex := 0 })
    ∧ (s.menuHistory = [] → (∀ t ∈ ts, t ≠ "main") →
        (backN ts.length (pushAll s ts)).currentMenu = s.currentMenu
        ∧ (backN ts.length (pushAll s ts)).menuHistory = []) := by
  refine ⟨rfl, ?_, ?_, ?_⟩
  · intro hm
    simp [backKey, hm]
  · intro h m hne hh
    simp [backKey, hne, hh, List.getLast?_concat, List.dropLast_concat]
  · intro hemp hts
    rw [backN_pushAll ts s hts]
    cases ts with
    | nil => simp [hemp]
    | cons a l => simp [hemp]

/-- Witness for C4: from the main menu, push `sysop_menu` then press back;
the session is back at `main` with an empty history. -/
theorem claim4_witness :
    (∀ t ∈ ["sysop_menu"], t ≠ "main")
    ∧ (backN 1 (pushAll ⟨"main", [], 0⟩ ["sysop_menu"])).currentMenu = "main"
    ∧ (backN 1 (pushAll ⟨"main", [], 0⟩ ["sysop_menu"])).menuHistory = [] := by
  have h := (claim4_menu_history_stack ⟨"main", [], 0⟩ "x" ["sysop_menu"]).2.2.2
    rfl (by decide)
  exact ⟨by decide, h.1, h.2⟩

/-! ## Pager (internal/pager/pager.go) -/

/-- Value of `availableLines` in `Pager.Display` (pager.go line 52): `height − 9`. -/
def availableLines (height : Nat) : Nat := height - 9

/-- Value of `totalPages` in `Pager.Display` (pager.go line 60):
`(len + availableLines − 1) / availableLines`. -/
def pagerTotalPages (n height : Nat) : Nat :=
  (n + availableLines height - 1) / availableLines height

/-- The number of pages `Pager.Display` splits `n` lines into: a single
unpaged page when they fit, `totalPages` otherwise. -/
def pagerNumPages (n height : Nat) : Nat :=
  if n ≤ availableLines height then 1 else pagerTotalPages n height

/-- The terminal rows `displaySinglePage` (pager.go lines 110-162) positions
the cursor to: title row 1, separator row 2, content from row 4 while the row
is at most `height − 6`, footer at `height − 5`. -/
def singlePageRows (n height : Nat) : List Nat :=
  [1, 2] ++ (List.range (min n (height - 9))).map (fun i => 4 + i) ++ [height - 5]

/-- The terminal rows `displayPage` (pager.go lines 165-217) positions the
cursor to: title row 1, page indicator row 2, separator row 3, content from
row 5 while the row is at most `height − 6`, footer at `height − 5` (via
`displayFooter`). -/
def multiPageRows (k height : Nat) : List Nat :=
  [1, 2, 3] ++ (List.range (min k (height - 10))).map (fun i => 5 + i) ++ [height - 5]

/-- The number of lines of page `current` (pager.go lines 69-76):
`lines[startIdx:endIdx]` with `startIdx = current·avail`,
`endIdx = min(startIdx + avail, n)`. -/
def pageLen (n height current : Nat) : Nat :=
  min (availableLines height) (n - current * availableLines height)

/-- The multi-page navigation loop of `Pager.Display` (pager.go lines 67-106)
over a key-input stream: renders the current page each iteration, then reads
one key.  Returns the rows written and the pages displayed, in order.  Key
handling: `q`/`Q` quits; space/enter/down advances (quits on the last page);
`b`/`B`/up retreats (no-op on the first page); anything else redraws.  An
exhausted stream models the read-error return. -/
def pagerLoop (n height total : Nat) : Nat → List String → List Nat × List Nat
  | current, [] => (multiPageRows (pageLen n height current) height, [current])
  | current, key :: rest =>
    let rows := multiPageRows (pageLen n height current) height
    if key = "q" ∨ key = "Q" then (rows, [current])
    else if key = " " ∨ key = "enter" ∨ key = "down" then
      if current < total - 1 then
        (rows ++ (pagerLoop n height total (current + 1) rest).1,
         current :: (pagerLoop n height total (current + 1) rest).2)
      else (rows, [current])
    else if key = "b" ∨ key = "B" ∨ key = "up" then
      (rows ++ (pagerLoop n height total (current - 1) rest).1,
       current :: (pagerLoop n height total (current - 1) rest).2)
    else
      (rows ++ (pagerLoop n height total current rest).1,
       current :: (pagerLoop n height total current rest).2)

/-- Model of `Pager.Display` (pager.go lines 42-107) over `n` pre-styled lines, a
terminal of the given height and a key stream: one unpaged page when the
lines fit in `height − 9` rows, the paged loop otherwise.  Returns the rows
written and the (zero-based) pages displayed. -/
def pagerDisplay (n height : Nat) (keys : List String) : List Nat × List Nat :=
  if n ≤ availableLines height then (singlePageRows n height, [0])
  else pagerLoop n height (pagerTotalPages n height) 0 keys

theorem mem_singlePageRows_lt {n h r : Nat} (hh : 14 ≤ h)
    (hr : r ∈ singlePageRows n h) : r < h := by
  simp only [singlePageRows, List.mem_append, List.mem_map, List.mem_range,
    List.mem_cons, List.not_mem_nil, or_false] at hr
  rcases hr with (hr | ⟨i, hi, rfl⟩) | hr <;> omega

theorem mem_multiPageRows_lt {k h r : Nat} (hh : 14 ≤ h)
    (hr : r ∈ multiPageRows k h) : r < h := by
  simp only [multiPageRows, List.mem_append, List.mem_map, List.mem_range,
    List.mem_cons, List.not_mem_nil, or_false] at hr
  rcases hr with (hr | ⟨i, hi, rfl⟩) | hr <;> omega

theorem pagerLoop_rows_lt (n h total : Nat) (hh : 14 ≤ h) :
    ∀ (keys : List String) (current r : Nat),
      r ∈ (pagerLoop n h total current keys).1 → r < h := by
  intro keys
  induction keys with
  | nil =>
    intro current r hr
    exact mem_multiPageRows_lt hh (by simpa [pagerLoop] using hr)
  | cons key rest ih =>
    intro current r hr
    unfold pagerLoop at hr
    by_cases h1 : key = "q" ∨ key = "Q"
    · rw [if_pos h1] at hr
      exact mem_multiPageRows_lt hh hr
    · rw [if_neg h1] at hr
      by_cases h2 : key = " " ∨ key = "enter" ∨ key = "down"
      · rw [if_pos h2] at hr
        by_cases h3 : current < total - 1
        · rw [if_pos h3] at hr
          rcases List.mem_append.mp hr with hr | hr
          · exact mem_multiPageRows_lt hh hr
          · exact ih (current + 1) r hr
        · rw [if_neg h3] at hr
          exact mem_multiPageRows_lt hh hr
      · rw [if_neg h2] at hr
        by_cases h4 : key = "b" ∨ key = "B" ∨ key = "up"
        · rw [if_pos h4] at hr
          rcases List.mem_append.mp hr with hr | hr
          · exact mem_multiPageRows_lt hh hr
          · exact ih (current - 1) r hr
        · rw [if_neg h4] at hr
          rcases List.mem_append.mp hr with hr | hr
          · exact mem_multiPageRows_lt hh hr
          · exact ih current r hr

/-- Claim C5: for every list of `n ≥ 0` lines and terminal height `H ≥ 14`,
the pager writes only to rows strictly above `H`, and the number of pages it
produces is `max(1, ceil(n / (H − 9)))`. -/
theorem claim5_pager (n height : Nat) (keys : List String) (hh : 14 ≤ height) :
    (∀ r ∈ (pagerDisplay n height keys).1, r < height)
    ∧ pagerNumPages n height
        = max 1 ((n + (height - 9) - 1) / (height - 9)) := by
  constructor
  · intro r hr
    unfold pagerDisplay at hr
    by_cases hfit : n ≤ availableLines height
    · rw [if_pos hfit] at hr
      exact mem_singlePageRows_lt hh hr
    · rw [if_neg hfit] at hr
      exact pagerLoop_rows_lt n height (pagerTotalPages n height) hh keys 0 r hr
  · unfold pagerNumPages pagerTotalPages availableLines
    have ha : 5 ≤ height - 9 := by omega
    by_cases hfit : n ≤ height - 9
    · rw [if_pos hfit]
      by_cases hz : n = 0
      · subst hz
        have : (0 + (height - 9) - 1) / (height - 9) = 0 :=
          Nat.div_eq_of_lt (by omega)
        omega
      · have h1 : 1 ≤ (n + (height - 9) - 1) / (height - 9) :=
          (Nat.le_div_iff_mul_le (by omega)).mpr (by omega)
        have h2 : (n + (height - 9) - 1) / (height - 9) < 2 :=
          (Nat.div_lt_iff_lt_mul (by omega)).mpr (by omega)
        omega
    · rw [if_neg hfit]
      have h1 : 1 ≤ (n + (height - 9) - 1) / (height - 9) :=
        (Nat.le_div_iff_mul_le (by omega)).mpr (by omega)
      omega

/-- Witness for C5 at the spec's own scenario 4: 53 lines on a 24-row
terminal split into `ceil(53 / 15) = 4` pages, all rows written above
row 24. -/
theorem claim5_witness :
    (14 ≤ 24)
    ∧ ((∀ r ∈ (pagerDisplay 53 24 [" ", " ", " ", " "]).1, r < 24)
        ∧ pagerNumPages 53 24 = max 1 ((53 + (24 - 9) - 1) / (24 - 9))) :=
  ⟨by decide, claim5_pager 53 24 [" ", " ", " ", " "] (by decide)⟩

/-! ## Interactive login (session.go handleLogin lines 68-136,
DB.UpdateUserLastCall lines 804-808) -/

/-- The `"Username: "` prompt written before each username read. -/
def usernamePrompt : List Char := "Username: ".toList

/-- The `"Password: "` prompt written before each password read. -/
def passwordPrompt : List Char := "Password: ".toList

/-- The `"=== Coastline BBS ==="` header write (the name `"header"` is not a
semantic palette name, so `GetColor` resolves it to the empty code). -/
def loginHeader (cfg : ColorConfig) : List Char :=
  Colorize cfg "=== Coastline BBS ===".toList "header" ++ ['\n', '\n']

/-- The red failure notice written on a mismatch. -/
def invalidLoginMsg (cfg : ColorConfig) : List Char :=
  Colorize cfg "Invalid username or password.".toList "error" ++ ['\n']

/-- The red notice written after the third failure. -/
def accessDeniedMsg (cfg : ColorConfig) : List Char :=
  Colorize cfg "Too many failed attempts. Access denied.".toList "error" ++ ['\n']

/-- The accent-colored greeting on success. -/
def welcomeMsg (cfg : ColorConfig) (username : String) : List Char :=
  Colorize cfg ("Welcome, " ++ username ++ "!").toList "accent" ++ ['\n', '\n']

/-- The observable outcome of `Session.handleLogin`: its boolean return, the
usernames passed to `DB.UpdateUserLastCall`, and the session writes it makes
(the prompts and notices; the writes of `readInput` itself are modelled with
`readInputGo`). -/
structure LoginResult where
  success : Bool
  updateCalls : List String
  writes : List (List Char)
deriving DecidableEq, Repr

/-- Prefix earlier writes onto a login outcome. -/
def prependWrites (ws : List (List Char)) (r : LoginResult) : LoginResult :=
  { r with writes := ws ++ r.writes }

theorem prependWrites_success (ws : List (List Char)) (r : LoginResult) :
    (prependWrites ws r).success = r.success := rfl

theorem prependWrites_updateCalls (ws : List (List Char)) (r : LoginResult) :
    (prependWrites ws r).updateCalls = r.updateCalls := rfl

/-- The attempt loop of `Session.handleLogin` (session.go lines 95-135), with
the remaining attempts as fuel and the line reads supplied by `inputs` (an
exhausted input list models `readInput` returning an error, which makes
`handleLogin` return `false` at once).  An empty username or password
consumes an attempt and re-loops; a failed lookup or password mismatch writes
the red notice and re-loops; a match calls `UpdateUserLastCall` once, writes
the greeting and succeeds; after the third failure the red
`"Access denied"` notice is written and the login fails. -/
def loginAttemptsGo (cfg : ColorConfig) (db : List User) :
    Nat → List String → LoginResult
  | 0, _ => { success := false, updateCalls := [], writes := [accessDeniedMsg cfg] }
  | _ + 1, [] => { success := false, updateCalls := [], writes := [usernamePrompt] }
  | n + 1, u :: rest =>
    if u = "" then prependWrites [usernamePrompt] (loginAttemptsGo cfg db n rest)
    else
      match rest with
      | [] =>
        { success := false, updateCalls := [], writes := [usernamePrompt, passwordPrompt] }
      | p :: rest2 =>
        if p = "" then
          prependWrites [usernamePrompt, passwordPrompt] (loginAttemptsGo cfg db n rest2)
        else
          match GetUser db u with
          | some user =>
            if user.password = p then
              { success := true, updateCalls := [u]
                writes := [usernamePrompt, passwordPrompt, welcomeMsg cfg user.username] }
            else
              prependWrites [usernamePrompt, passwordPrompt, invalidLoginMsg cfg]
                (loginAttemptsGo cfg db n rest2)
          | none =>
            prependWrites [usernamePrompt, passwordPrompt, invalidLoginMsg cfg]
              (loginAttemptsGo cfg db n rest2)

/-- Model of `Session.handleLogin` on the interactive (no prefilled username) path:
the header write, then up to 3 attempts. -/
def handleLogin (cfg : ColorConfig) (db : List User) (inputs : List String) :
    LoginResult :=
  prependWrites [loginHeader cfg] (loginAttemptsGo cfg db 3 inputs)

/-- Whether the credential validation of an attempt succeeds
(session.go line 119-120: lookup plus literal password comparison). -/
def validCreds (db : List User) (u p : String) : Bool :=
  match GetUser db u with
  | some user => user.password = p
  | none => false

theorem loginAttempts_fail_step (cfg : ColorConfig) (db : List User) (fuel : Nat)
    (u p : String) (rest2 : List String)
    (hu : u ≠ "") (hp : p ≠ "") (hv : validCreds db u p = false) :
    loginAttemptsGo cfg db (fuel + 1) (u :: p :: rest2)
      = prependWrites [usernamePrompt, passwordPrompt, invalidLoginMsg cfg]
          (loginAttemptsGo cfg db fuel rest2) := by
  unfold validCreds at hv
  rw [loginAttemptsGo.eq_def]
  cases hg : GetUser db u with
  | none => simp [hu, hp, hg]
  | some user =>
    rw [hg] at hv
    have hne : user.password ≠ p := by simpa using hv
    simp [hu, hp, hg, hne]

theorem loginAttempts_updates (cfg : ColorConfig) (db : List User) :
    ∀ fuel inputs,
      (loginAttemptsGo cfg db fuel inputs).updateCalls.length
        = if (loginAttemptsGo cfg db fuel inputs).success then 1 else 0 := by
  intro fuel
  induction fuel with
  | zero => intro inputs; rfl
  | succ n ih =>
    intro inputs
    cases inputs with
    | nil => rfl
    | cons u rest =>
      unfold loginAttemptsGo
      by_cases hu : u = ""
      · simp only [hu, if_true, if_pos]
        simpa [prependWrites] using ih rest
      · simp only [hu, if_false, if_neg, ite_false]
        cases rest with
        | nil => rfl
        | cons p rest2 =>
          by_cases hp : p = ""
          · simp only [hp, if_true, if_pos]
            simpa [prependWrites] using ih rest2
          · simp only [hp, if_false, ite_false]
            cases hg : GetUser db u with
            | none => simpa [prependWrites] using ih rest2
            | some user =>
              by_cases hpw : user.password = p
              · simp [hpw]
              · simpa [hpw, prependWrites] using ih rest2

/-- Claim C2: three attempts with failing credential validation make the
session write the red `"Access denied"` notice and `handleLogin` return
`false` with `UpdateUserLastCall` never invoked; and whenever `handleLogin`
succeeds, `UpdateUserLastCall` is invoked exactly once. -/
theorem claim2_login_attempts (cfg : ColorConfig) (db : List User)
    (u1 p1 u2 p2 u3 p3 : String) (rest : List String)
    (h1 : u1 ≠ "" ∧ p1 ≠ "" ∧ validCreds db u1 p1 = false)
    (h2 : u2 ≠ "" ∧ p2 ≠ "" ∧ validCreds db u2 p2 = false)
    (h3 : u3 ≠ "" ∧ p3 ≠ "" ∧ validCreds db u3 p3 = false) :
    (handleLogin cfg db (u1 :: p1 :: u2 :: p2 :: u3 :: p3 :: rest)
      = { success := false, updateCalls := []
          writes := [loginHeader cfg,
                     usernamePrompt, passwordPrompt, invalidLoginMsg cfg,
                     usernamePrompt, passwordPrompt, invalidLoginMsg cfg,
                     usernamePrompt, passwordPrompt, invalidLoginMsg cfg,
                     accessDeniedMsg cfg] })
    ∧ (∀ inputs, (handleLogin cfg db inputs).success = true →
        (handleLogin cfg db inputs).updateCalls.length = 1) := by
  constructor
  · unfold handleLogin
    rw [show (3 : Nat) = 2 + 1 from rfl,
      loginAttempts_fail_step cfg db 2 u1 p1 _ h1.1 h1.2.1 h1.2.2,
      show (2 : Nat) = 1 + 1 from rfl,
      loginAttempts_fail_step cfg db 1 u2 p2 _ h2.1 h2.2.1 h2.2.2,
      show (1 : Nat) = 0 + 1 from rfl,
      loginAttempts_fail_step cfg db 0 u3 p3 _ h3.1 h3.2.1 h3.2.2]
    simp [prependWrites, loginAttemptsGo]
  · intro inputs hs
    have h := loginAttempts_updates cfg db 3 inputs
    unfold handleLogin at hs ⊢
    rw [prependWrites_updateCalls, prependWrites_success] at *
    rw [hs] at h
    simpa using h

/-- Witness for C2: three `sysop`/`wrong` attempts against a store holding
`sysop`/`secret` — denied with no `UpdateUserLastCall`; and any successful
login updates the last call exactly once. -/
theorem claim2_witness :
    (validCreds [(⟨"sysop", "secret", 255, true⟩ : User)] "sysop" "wrong" = false)
    ∧ ((handleLogin defaultColors [⟨"sysop", "secret", 255, true⟩]
          ("sysop" :: "wrong" :: "sysop" :: "wrong" :: "sysop" :: "wrong" :: [])
        = { success := false, updateCalls := []
            writes := [loginHeader defaultColors,
                       usernamePrompt, passwordPrompt, invalidLoginMsg defaultColors,
                       usernamePrompt, passwordPrompt, invalidLoginMsg defaultColors,
                       usernamePrompt, passwordPrompt, invalidLoginMsg defaultColors,
                       accessDeniedMsg defaultColors] })
      ∧ (∀ inputs,
          (handleLogin defaultColors [⟨"sysop", "secret", 255, true⟩] inputs).success
              = true →
          (handleLogin defaultColors [⟨"sysop", "secret", 255, true⟩]
              inputs).updateCalls.length = 1)) :=
  ⟨by decide,
   claim2_login_attempts defaultColors [⟨"sysop", "secret", 255, true⟩]
     "sysop" "wrong" "sysop" "wrong" "sysop" "wrong" []
     ⟨by decide, by decide, by decide⟩
     ⟨by decide, by decide, by decide⟩
     ⟨by decide, by decide, by decide⟩⟩

/-! ## Status-bar repaint debounce (server file: TerminalWriter.Write /
handleStatusBarRedraw) -/

/-- The debounce state of `TerminalWriter`: `lastStatusBarRedraw` (the zero
`time.Time{}` start value is modelled as a time far in the past),
`pendingRedraw`, and — when a redraw is pending — the instant the scheduled
goroutine fires (it sleeps exactly 100 ms in this model). -/
structure DebounceState where
  last : Int
  pending : Bool
  fireAt : Int
deriving DecidableEq, Repr

/-- The initial `TerminalWriter` state (`lastStatusBarRedraw = time.Time{}`). -/
def debounceInit : DebounceState := { last := -1000000000, pending := false, fireAt := 0 }

/-- One screen-clear event at time `t` ms, with a status bar installed,
processed by `handleStatusBarRedraw` (serialized with the pending goroutine
through the mutex; a pending repaint whose fire time has arrived fires
first).  Repaints emitted at or before this event are returned with the new
state. -/
def debounceGo (s : DebounceState) : List Int → List Int
  | [] => if s.pending then [s.fireAt] else []
  | t :: rest =>
    if s.pending ∧ s.fireAt ≤ t then
      -- the scheduled goroutine woke up before this clear: it clears the
      -- pending flag, stamps the redraw time and repaints
      s.fireAt ::
        (if t - s.fireAt < 100 then
          -- this clear is inside the new window and nothing is pending:
          -- schedule a delayed repaint 100 ms out
          debounceGo { last := s.fireAt, pending := true, fireAt := t + 100 } rest
        else t :: debounceGo { last := t, pending := false, fireAt := 0 } rest)
    else
      if t - s.last < 100 then
        if s.pending then debounceGo s rest
        else debounceGo { s with pending := true, fireAt := t + 100 } rest
      else t :: debounceGo { s with last := t } rest

/-- All repaint instants produced by a sequence of screen clears (times in
ms, ascending). -/
def repaintTimes (clears : List Int) : List Int := debounceGo debounceInit clears

/-- Claim C6: the second clear inside a window is indeed coalesced into one
delayed repaint (clears at 0 and 50 ms yield repaints at 0 and 150 ms only);
but the "at most one repaint per 100 ms" debounce is violated: clears at
0, 99 and 100 ms yield repaints at 0, 100 and 199 ms — the immediate repaint
at 100 ms does not cancel the repaint already scheduled for 199 ms, which
fires 99 ms later. -/
theorem claim6_debounce_window_violated :
    repaintTimes [0, 50] = [0, 150]
    ∧ repaintTimes [0, 99, 100] = [0, 100, 199]
    ∧ (199 : Int) - 100 < 100 := by
  refine ⟨?_, ?_, by decide⟩ <;> rfl
